import Mathlib

/-!
Verification of the graph-styling-and-serialization component of the
`pushurl` repository (`src/libs/altgraph/Dot.py`).

The `Dot` class holds a graph name, a graph kind (`digraph`/`graph`),
a whole-graph attribute mapping, a per-node attribute mapping and a
per-head/per-tail edge attribute mapping, plus command names and
temporary file paths.  Python dictionaries are modelled by
insertion-ordered association lists: assignment to an existing key
replaces the value in place, assignment to a fresh key appends it.
-/

namespace AltgraphDot

variable {α : Type} {β : Type}

/-- Lookup in an association list, the shallow embedding of `d[k]` /
`k in d` on a Python dict. -/
def alGet [DecidableEq α] (k : α) : List (α × β) → Option β
  | [] => none
  | (k', v) :: l => if k = k' then some v else alGet k l

/-- Assignment `d[k] = v` on a Python dict: replace in place when the key
is present, append when it is fresh (insertion order of CPython dicts). -/
def alSet [DecidableEq α] (k : α) (v : β) : List (α × β) → List (α × β)
  | [] => [(k, v)]
  | (k', v') :: l => if k = k' then (k, v) :: l else (k', v') :: alSet k v l

/-- The graph kind; `Dot.__init__` asserts
that `graphtype` is the text digraph or the text graph. -/
inductive GraphType where
  | digraph
  | graph
deriving DecidableEq, Repr

/-- An attribute mapping: attribute name to (already stringified)
attribute value, the embedding of the `**kwargs` dicts. -/
abbrev Attrs := List (String × String)

/-- The state of a `Dot.Dot` object (the StyleStore of the spec):
fields `name`, `type`, `attr`, `nodes`, `edges` of `Dot.__init__`,
plus the renderer command names and the two temporary file paths. -/
structure Dot (α : Type) where
  name : String
  type : GraphType
  attr : Attrs
  nodes : List (α × Attrs)
  edges : List (α × List (α × Attrs))
  dot : String := "dot"
  dotty : String := "dotty"
  neato : String := "neato"
  temp_dot : String := "tmp_dot.dot"
  temp_neo : String := "tmp_neo.dot"
deriving DecidableEq, Repr

/-- Embedding of `Dot.node_style(node, **kwargs)`:
`if node not in self.edges: self.edges[node] = \x7b\x7d` then
`self.nodes[node] = kwargs`. -/
def node_style [DecidableEq α] (s : Dot α) (node : α) (kwargs : Attrs) : Dot α :=
  match alGet node s.edges with
  | some _ => { s with nodes := alSet node kwargs s.nodes }
  | none =>
    { s with edges := s.edges ++ [(node, [])], nodes := alSet node kwargs s.nodes }

/-- Embedding of `Dot.edge_style(head, tail, **kwargs)`.  The body reads
`self.edges[head]` first; when `head` is absent this raises `KeyError`
before any write, re-raised as `GraphError` (named `UndeclaredNodeError` in the spec).  The result is the post-state paired with the
error message when one is raised. -/
def edge_style [DecidableEq α] [ToString α] (s : Dot α) (head tail : α)
    (kwargs : Attrs) : Dot α × Option String :=
  match alGet head s.edges with
  | none =>
    (s, some ("invalid edge  " ++ toString head ++ " -> " ++ toString tail ++ " "))
  | some tails =>
    ({ s with edges := alSet head (alSet tail kwargs tails) s.edges }, none)

/-- Embedding of `Dot.style(**attr)`: replaces the whole-graph attribute mapping. -/
def style (s : Dot α) (attr : Attrs) : Dot α :=
  { s with attr := attr }

/-- Embedding of `Dot.all_node_style(**kwargs)`: calls `node_style` on every declared
node (the key set is unchanged by those calls, so iterating the initial
key list is faithful). -/
def all_node_style [DecidableEq α] (s : Dot α) (kwargs : Attrs) : Dot α :=
  (s.nodes.map Prod.fst).foldl (fun acc n => node_style acc n kwargs) s

/-- Embedding of the `Dot.__init__` seeding loops: declare every node the node visitor
keeps (`None` from the visitor is the skip-signal), remember them in
`seen` (modelled in insertion order), then for every seen head style the
edges to the seen neighbours the edge visitor keeps.  The `graph`
collaborator only supplies defaults for `nodes` and `edgefn`, so the
model takes those directly. -/
def dotInit [DecidableEq α] [ToString α] (nodes : List α)
    (edgefn : Option (α → List α))
    (nodevisitor : Option (α → Option Attrs))
    (edgevisitor : Option (α → α → Option Attrs))
    (name : String) (gtype : GraphType) : Dot α :=
  let base : Dot α :=
    { name := name, type := gtype, attr := [], nodes := [], edges := [] }
  let seeded := nodes.foldl
    (fun (acc : Dot α × List α) node =>
      match (match nodevisitor with
             | none => some ([] : Attrs)
             | some v => v node) with
      | none => acc
      | some st => (node_style acc.1 node st, acc.2 ++ [node]))
    (base, ([] : List α))
  match edgefn with
  | none => seeded.1
  | some ef =>
    seeded.2.foldl
      (fun s1 head =>
        ((ef head).filter (fun t => decide (t ∈ seeded.2))).foldl
          (fun s2 tail =>
            match (match edgevisitor with
                   | none => some ([] : Attrs)
                   | some v => v head tail) with
            | none => s2
            | some est => (edge_style s2 head tail est).1)
          s1)
      seeded.1

/-- Embedding of `Dot.iterdot()`: the fragments the generator yields, in order. -/
def iterdot [ToString α] (s : Dot α) : List String :=
  (match s.type with
   | GraphType.digraph => ["digraph " ++ s.name ++ " \x7b\n"]
   | GraphType.graph => ["graph " ++ s.name ++ " \x7b\n"]) ++
  s.attr.map (fun p => p.1 ++ "=\"" ++ p.2 ++ "\";") ++
  ["\n"] ++
  (s.nodes.map (fun np =>
    ["\t\"" ++ toString np.1 ++ "\" ["] ++
    np.2.map (fun p => p.1 ++ "=\"" ++ p.2 ++ "\",") ++
    ["];\n"])).flatten ++
  (s.edges.map (fun hp =>
    (hp.2.map (fun tp =>
      [(match s.type with
        | GraphType.digraph =>
          "\t\"" ++ toString hp.1 ++ "\" -> \"" ++ toString tp.1 ++ "\" ["
        | GraphType.graph =>
          "\t\"" ++ toString hp.1 ++ "\" -- \"" ++ toString tp.1 ++ "\" [")] ++
      tp.2.map (fun p => p.1 ++ "=\"" ++ p.2 ++ "\",") ++
      ["];\n"])).flatten)).flatten ++
  ["\x7d\n"]

/-- One run of the serializer with the object state threaded through:
the generator body of `iterdot` only reads `self` and never assigns to
it, so a run returns the yielded fragments and the unchanged state. -/
def serializeRun [ToString α] (s : Dot α) : List String × Dot α :=
  (iterdot s, s)

/-- Variant of `iterdot` with the kind-dependent tokens abstracted out: `kw` is the
header keyword (with its trailing space) and `conn` the quoted connector
between head and tail.  The definition never inspects `s.type`. -/
def iterdotTemplate [ToString α] (kw conn : String) (s : Dot α) : List String :=
  [kw ++ s.name ++ " \x7b\n"] ++
  s.attr.map (fun p => p.1 ++ "=\"" ++ p.2 ++ "\";") ++
  ["\n"] ++
  (s.nodes.map (fun np =>
    ["\t\"" ++ toString np.1 ++ "\" ["] ++
    np.2.map (fun p => p.1 ++ "=\"" ++ p.2 ++ "\",") ++
    ["];\n"])).flatten ++
  (s.edges.map (fun hp =>
    (hp.2.map (fun tp =>
      ["\t\"" ++ toString hp.1 ++ conn ++ toString tp.1 ++ "\" ["] ++
      tp.2.map (fun p => p.1 ++ "=\"" ++ p.2 ++ "\",") ++
      ["];\n"])).flatten)).flatten ++
  ["\x7d\n"]

/-- Embedding of `Dot.save_img(file_name, file_type, mode)`: the external commands
issued via `os.system`, in order (the intermediate `save_dot` file
writes are not commands).  In `neato` mode the layout command runs
first and the plot command is `self.neato`; otherwise it is `self.dot`. -/
def save_img (s : Dot α) (file_name file_type mode : String) : List String :=
  if mode = "neato" then
    [s.neato ++ " -o " ++ s.temp_dot ++ " " ++ s.temp_neo,
     s.neato ++ " -T" ++ file_type ++ " " ++ s.temp_dot ++ " -o " ++
       (file_name ++ "." ++ file_type)]
  else
    [s.dot ++ " -T" ++ file_type ++ " " ++ s.temp_dot ++ " -o " ++
      (file_name ++ "." ++ file_type)]

/-- A node is declared when `setNodeStyle` has recorded a mapping for it. -/
def declared [DecidableEq α] (s : Dot α) (n : α) : Bool :=
  (alGet n s.nodes).isSome

/-- The styled edges of the store: every (head, tail) pair with an
attribute mapping recorded in `edges`. -/
def styledEdges (s : Dot α) : List (α × α) :=
  (s.edges.map (fun hp => hp.2.map (fun tp => (hp.1, tp.1)))).flatten

/-- The representation invariant every store reachable through the class
API satisfies: a node has an entry in `nodes` exactly when it has a
top-level entry in `edges` (`node_style` always creates both). -/
def WF [DecidableEq α] (s : Dot α) : Prop :=
  ∀ n : α, (alGet n s.nodes).isSome ↔ (alGet n s.edges).isSome

theorem alGet_alSet_self [DecidableEq α] (k : α) (v : β) (l : List (α × β)) :
    alGet k (alSet k v l) = some v := by
  induction l with
  | nil => simp [alGet, alSet]
  | cons p l ih =>
    obtain ⟨k', v'⟩ := p
    by_cases h : k = k'
    · simp [alGet, alSet, h]
    · simp [alGet, alSet, h, ih]

theorem alGet_alSet_ne [DecidableEq α] {k k' : α} (h : k ≠ k') (v : β)
    (l : List (α × β)) : alGet k (alSet k' v l) = alGet k l := by
  induction l with
  | nil => simp [alGet, alSet, h]
  | cons p l ih =>
    obtain ⟨k'', v''⟩ := p
    by_cases h2 : k' = k''
    · subst h2
      simp [alGet, alSet, h]
    · simp only [alSet, if_neg h2, alGet]
      split <;> simp [ih]

theorem alGet_append_single [DecidableEq α] (k k2 : α) (v : β)
    (l : List (α × β)) :
    alGet k (l ++ [(k2, v)]) =
      match alGet k l with
      | some w => some w
      | none => if k = k2 then some v else none := by
  induction l with
  | nil => simp [alGet]
  | cons p l ih =>
    obtain ⟨k', v'⟩ := p
    by_cases h : k = k'
    · simp [alGet, h]
    · simp [alGet, h, ih]

theorem isSome_alGet_alSet [DecidableEq α] (k k' : α) (v : β)
    (l : List (α × β)) :
    (alGet k (alSet k' v l)).isSome =
      (if k = k' then true else (alGet k l).isSome) := by
  by_cases h : k = k'
  · subst h; simp [alGet_alSet_self]
  · simp [alGet_alSet_ne h, h]

/-- Applying `node_style` preserves the nodes/edges key agreement. -/
theorem WF_node_style [DecidableEq α] {s : Dot α} (hwf : WF s) (n : α)
    (m : Attrs) : WF (node_style s n m) := by
  intro x
  by_cases hx : x = n
  · subst hx
    cases hE : alGet x s.edges with
    | some tails => simp [node_style, hE, alGet_alSet_self]
    | none => simp [node_style, hE, alGet_alSet_self, alGet_append_single]
  · cases hE : alGet n s.edges with
    | some tails =>
      simp only [node_style, hE]
      simp only [alGet_alSet_ne hx]
      exact hwf x
    | none =>
      simp only [node_style, hE]
      simp only [alGet_alSet_ne hx, alGet_append_single]
      cases hF : alGet x s.edges with
      | some w => simp [hF]; have := hwf x; simp [hF] at this; simp [this]
      | none => simp [hF, hx]; have := hwf x; simp [hF] at this; simp [this]

/-- Applying `edge_style` preserves the nodes/edges key agreement. -/
theorem WF_edge_style [DecidableEq α] [ToString α] {s : Dot α} (hwf : WF s)
    (hd tl : α) (m : Attrs) : WF (edge_style s hd tl m).1 := by
  intro x
  cases hE : alGet hd s.edges with
  | none => simp only [edge_style, hE]; exact hwf x
  | some tails =>
    simp only [edge_style, hE]
    rw [show ((alGet x (alSet hd (alSet tl m tails) s.edges)).isSome =
        (if x = hd then true else (alGet x s.edges).isSome)) from
      isSome_alGet_alSet x hd (alSet tl m tails) s.edges]
    by_cases hx : x = hd
    · subst hx
      simp only [if_pos rfl]
      have := hwf x
      simp [hE] at this
      simp [this]
    · simp only [if_neg hx]
      exact hwf x

/-- Applying `node_style` always stores `kwargs` as the mapping of the node, whichever
branch the `edges` check takes. -/
theorem nodes_node_style [DecidableEq α] (s : Dot α) (n : α) (m : Attrs) :
    (node_style s n m).nodes = alSet n m s.nodes := by
  cases hE : alGet n s.edges <;> simp [node_style, hE]

/-- The store built by `Dot()` with no graph and no nodes is well formed. -/
theorem WF_dotInit_empty {γ : Type} [DecidableEq γ] [ToString γ]
    (nm : String) (gt : GraphType) :
    WF (dotInit ([] : List γ) none none none nm gt) := by
  intro x
  simp [dotInit, alGet]

/-- Result of `Dot(name="G")`: the store the constructor builds with no graph,
no nodes and no visitors. -/
def sampleBase : Dot Nat :=
  dotInit ([] : List Nat) none none none "G" GraphType.digraph

/-- The end-to-end example store of the spec: directed, named "G", nodes 1
and 2 declared attribute-free, edge (1,2) styled `style="dotted"`. -/
def exampleStore : Dot Nat :=
  (edge_style (node_style (node_style sampleBase 1 []) 2 []) 1 2
    [("style", "dotted")]).1

theorem WF_sampleBase : WF sampleBase :=
  WF_dotInit_empty "G" GraphType.digraph

theorem WF_exampleStore : WF exampleStore :=
  WF_edge_style (WF_node_style (WF_node_style WF_sampleBase 1 []) 2 []) 1 2
    [("style", "dotted")]

/-- C1: on a well-formed store, `setEdgeStyle(h, t, m)` fails with the
undeclared-node error exactly when `h` was never declared via
`setNodeStyle`; when `h` is declared it succeeds — regardless of whether
`t` is declared — and records exactly `m` as the mapping of edge (h, t). -/
theorem edge_style_head_check {α : Type} [DecidableEq α] [ToString α]
    (s : Dot α) (hd tl : α) (m : Attrs) (hwf : WF s) :
    (declared s hd = false → (edge_style s hd tl m).2.isSome = true) ∧
    (declared s hd = true → (edge_style s hd tl m).2 = none ∧
      (alGet hd (edge_style s hd tl m).1.edges).bind (alGet tl) = some m) := by
  have key := hwf hd
  cases hE : alGet hd s.edges with
  | none =>
    constructor
    · intro _
      simp [edge_style, hE]
    · intro hdecl
      simp only [declared] at hdecl
      rw [key] at hdecl
      simp [hE] at hdecl
  | some tails =>
    constructor
    · intro hdecl
      simp only [declared] at hdecl
      have htrue : (alGet hd s.nodes).isSome = true := key.mpr (by simp [hE])
      simp [htrue] at hdecl
    · intro _
      refine ⟨by simp [edge_style, hE], ?_⟩
      simp [edge_style, hE, alGet_alSet_self]

theorem edge_style_head_check_witness :
    WF (node_style sampleBase 1 []) ∧
    declared (node_style sampleBase 1 []) 1 = true ∧
    ((edge_style (node_style sampleBase 1 []) 1 2 [("a", "b")]).2 = none ∧
     (alGet 1 (edge_style (node_style sampleBase 1 []) 1 2
        [("a", "b")]).1.edges).bind (alGet 2) = some [("a", "b")]) :=
  ⟨WF_node_style WF_sampleBase 1 [], by decide,
   (edge_style_head_check (node_style sampleBase 1 []) 1 2 [("a", "b")]
     (WF_node_style WF_sampleBase 1 [])).2 (by decide)⟩

/-- C3: `setNodeStyle(n, m1)` then `setNodeStyle(n, m2)` leaves exactly
`m2` as the mapping of the node (full replacement, not a merge), and the node
is declared after the first call. -/
theorem node_style_replaces {α : Type} [DecidableEq α] (s : Dot α) (n : α)
    (m1 m2 : Attrs) :
    alGet n (node_style (node_style s n m1) n m2).nodes = some m2 ∧
    declared (node_style s n m1) n = true := by
  constructor
  · rw [nodes_node_style, nodes_node_style, alGet_alSet_self]
  · simp [declared, nodes_node_style, alGet_alSet_self]

/-- C9: a failing `setEdgeStyle` call (undeclared head on a well-formed
store) reports the error and leaves the whole store — graph attributes,
node styles, edge styles, kind and name — exactly as it was. -/
theorem edge_style_atomic_failure {α : Type} [DecidableEq α] [ToString α]
    (s : Dot α) (hd tl : α) (m : Attrs) (hwf : WF s)
    (hund : declared s hd = false) :
    (edge_style s hd tl m).1 = s ∧ (edge_style s hd tl m).2.isSome = true := by
  have key := hwf hd
  cases hE : alGet hd s.edges with
  | none => simp [edge_style, hE]
  | some tails =>
    simp only [declared] at hund
    have htrue : (alGet hd s.nodes).isSome = true := key.mpr (by simp [hE])
    simp [htrue] at hund

theorem edge_style_atomic_failure_witness :
    WF sampleBase ∧ declared sampleBase 1 = false ∧
    ((edge_style sampleBase 1 2 [("a", "b")]).1 = sampleBase ∧
     (edge_style sampleBase 1 2 [("a", "b")]).2.isSome = true) :=
  ⟨WF_sampleBase, by decide,
   edge_style_atomic_failure sampleBase 1 2 [("a", "b")] WF_sampleBase
     (by decide)⟩

/-- C10: re-declaring an already declared node `n` (in a well-formed
store that has styled edges with head `n`) replaces only the node
mapping of `n`: the edge map, the graph attributes, the kind and the name are
untouched, and the mapping of every other node is unchanged. -/
theorem node_style_redeclare_frame {α : Type} [DecidableEq α] (s : Dot α)
    (n : α) (m : Attrs) (hwf : WF s) (hd : declared s n = true)
    (_hedge : ∃ t, (n, t) ∈ styledEdges s) :
    (node_style s n m).edges = s.edges ∧
    (node_style s n m).attr = s.attr ∧
    (node_style s n m).type = s.type ∧
    (node_style s n m).name = s.name ∧
    alGet n (node_style s n m).nodes = some m ∧
    ∀ x, x ≠ n → alGet x (node_style s n m).nodes = alGet x s.nodes := by
  have key := hwf n
  simp only [declared] at hd
  rw [key] at hd
  cases hE : alGet n s.edges with
  | none => simp [hE] at hd
  | some tails =>
    refine ⟨by simp [node_style, hE], by simp [node_style, hE],
      by simp [node_style, hE], by simp [node_style, hE],
      by simp [node_style, hE, alGet_alSet_self], ?_⟩
    intro x hx
    simp [node_style, hE, alGet_alSet_ne hx]

theorem node_style_redeclare_frame_witness :
    WF exampleStore ∧ declared exampleStore 1 = true ∧
    (∃ t, (1, t) ∈ styledEdges exampleStore) ∧
    ((node_style exampleStore 1 [("color", "red")]).edges =
       exampleStore.edges ∧
     (node_style exampleStore 1 [("color", "red")]).attr =
       exampleStore.attr ∧
     (node_style exampleStore 1 [("color", "red")]).type =
       exampleStore.type ∧
     (node_style exampleStore 1 [("color", "red")]).name =
       exampleStore.name ∧
     alGet 1 (node_style exampleStore 1 [("color", "red")]).nodes =
       some [("color", "red")] ∧
     ∀ x, x ≠ 1 → alGet x (node_style exampleStore 1
       [("color", "red")]).nodes = alGet x exampleStore.nodes) :=
  ⟨WF_exampleStore, by decide, ⟨2, by decide⟩,
   node_style_redeclare_frame exampleStore 1 [("color", "red")]
     WF_exampleStore (by decide) ⟨2, by decide⟩⟩

/-- C2: on the end-to-end example store of the spec (directed, named "G",
attribute-free nodes 1 and 2, edge (1,2) styled `style="dotted"`),
concatenating the serializer fragments yields exactly the expected
document text. -/
theorem serialization_example :
    String.join (iterdot exampleStore) =
      "digraph G \x7b\n\n\t\"1\" [];\n\t\"2\" [];\n\t\"1\" -> \"2\" [style=\"dotted\",];\n\x7d\n" := by
  decide

/-- The seeder example of the spec: nodes {1,2,3}, edges 1->2, 1->3,
2->3, node visitor excluding node 3, no edge visitor. -/
def seederExample : Dot Nat :=
  dotInit [1, 2, 3]
    (some (fun n => if n = 1 then [2, 3] else if n = 2 then [3] else []))
    (some (fun n => if n = 3 then none else some []))
    none "G" GraphType.digraph

/-- C4: the seeder, on the example collaborator with node 3 excluded by
the node visitor, declares exactly nodes 1 and 2 and styles exactly the
single edge (1,2); edges touching the excluded node are dropped without
an error. -/
theorem seeder_drops_excluded :
    seederExample.nodes.map Prod.fst = [1, 2] ∧
    styledEdges seederExample = [(1, 2)] := by
  decide

/-- C5: serializing an empty store (either kind) yields exactly three
fragments: the header line, one empty attribute line, and the closing
brace line — no node and no edge statements. -/
theorem iterdot_empty_store {α : Type} [ToString α]
    (name d dy ne td tn : String) :
    iterdot ({ name := name, type := GraphType.digraph, attr := [],
               nodes := [], edges := [], dot := d, dotty := dy, neato := ne,
               temp_dot := td, temp_neo := tn } : Dot α) =
      ["digraph " ++ name ++ " \x7b\n", "\n", "\x7d\n"] ∧
    iterdot ({ name := name, type := GraphType.graph, attr := [],
               nodes := [], edges := [], dot := d, dotty := dy, neato := ne,
               temp_dot := td, temp_neo := tn } : Dot α) =
      ["graph " ++ name ++ " \x7b\n", "\n", "\x7d\n"] :=
  ⟨rfl, rfl⟩

/-- C6: a serializer run returns the store unchanged, so re-running it
on the resulting state yields byte-identical concatenated output. -/
theorem serialize_restartable {α : Type} [ToString α] (s : Dot α) :
    (serializeRun s).2 = s ∧
    String.join (serializeRun ((serializeRun s).2)).1 =
      String.join (serializeRun s).1 :=
  ⟨rfl, rfl⟩

/-- C7: for stores equal except in kind, both serializations are
instances of the one kind-free template `iterdotTemplate`, the directed
one with keyword "digraph" and connector " -> ", the undirected one with
keyword "graph" and connector " -- ": the outputs differ only in those
two tokens, all attribute content and other text being produced by the
shared template. -/
theorem iterdot_kind_changes_tokens_only {α : Type} [ToString α]
    (s : Dot α) :
    iterdot { s with type := GraphType.digraph } =
      iterdotTemplate "digraph " "\" -> \"" s ∧
    iterdot { s with type := GraphType.graph } =
      iterdotTemplate "graph " "\" -- \"" s := by
  cases s
  exact ⟨rfl, rfl⟩

/-- C8: the last external command `save_img` issues is
`<plot-command> -T<format> <staged-input> -o <output>`, and the output
path is exactly the base file name, a dot, and the image format. -/
theorem save_img_final_command {α : Type} (s : Dot α)
    (p f mode : String) :
    (save_img s p f mode).getLast? =
      some ((if mode = "neato" then s.neato else s.dot) ++ " -T" ++ f ++
        " " ++ s.temp_dot ++ " -o " ++ (p ++ "." ++ f)) := by
  by_cases h : mode = "neato" <;> simp [save_img, h]

end AltgraphDot
